import Mathlib

/-!
Shallow embedding of the EV charging-station client (React/TypeScript) for
checking its natural-language specification.

The embedding covers:
* the text sanitizer `sanitizeText` (App components, implemented via
  `div.textContent = str; return div.innerHTML`, i.e. HTML text-node
  serialization, which entity-escapes the characters needed to keep the
  text inert in a text context);
* an HTML text-context renderer `renderText` (what an `innerHTML` sink
  parses a pure-text fragment back to);
* `encodeURIComponent` / `decodeURIComponent` (restricted to the ASCII
  plane, which covers every JavaScript numeric string form);
* the station record validator `validateStation` over a model of untyped
  JavaScript values;
* the two MapView variants (one filters by `validateStation`, one does
  not) and the two `handleGetDirections` variants (one guarded, one raw);
* the App-level navigation state machine (`currentView`,
  `selectedStation`, `isCharging`) and its event handlers.
-/

namespace EVCharge

/-! ## JavaScript number values

A JavaScript number is NaN, an infinity, or a finite value.  Finite values
are modelled as rationals.  A `JSNum` pairs the value with its JavaScript
textual form `String(x)`; `parseFloat(String(x))` is the identity on
JavaScript numbers, which the embedding uses silently. -/

inductive JNumVal where
  | nan
  | inf
  | neginf
  | fin (q : ℚ)
deriving DecidableEq

/-- The JavaScript `isNaN` test on a number value. -/
def JNumVal.isNaN : JNumVal → Bool
  | .nan => true
  | _ => false

/-- The JavaScript `<` comparison on numbers (false whenever NaN is involved). -/
def JNumVal.jlt : JNumVal → JNumVal → Bool
  | .nan, _ => false
  | _, .nan => false
  | .neginf, .neginf => false
  | .neginf, _ => true
  | _, .neginf => false
  | .inf, _ => false
  | .fin _, .inf => true
  | .fin a, .fin b => decide (a < b)

/-- A JavaScript number together with its textual form `String(x)`. -/
structure JSNum where
  val : JNumVal
  str : String
deriving DecidableEq

/-! ## Text sanitizer and the HTML text-context render sink

`sanitizeText` (MapView / StationDetails):
```js
const sanitizeText = (text: string | number): string => {
  const str = String(text)
  const div = document.createElement('div')
  div.textContent = str
  return div.innerHTML
}
```
Setting `textContent` and reading `innerHTML` serializes the text node:
per the HTML fragment-serialization algorithm this replaces `&` by
`&amp;`, U+00A0 by `&nbsp;`, `<` by `&lt;` and `>` by `&gt;`, and leaves
every other character (including both quote characters) unchanged. -/

/-- Serialization of one character of a text node (the effect of
`div.textContent = ...; div.innerHTML`). -/
def escCharL (c : Char) : List Char :=
  if c = '&' then ['&', 'a', 'm', 'p', ';']
  else if c = Char.ofNat 160 then ['&', 'n', 'b', 's', 'p', ';']
  else if c = '<' then ['&', 'l', 't', ';']
  else if c = '>' then ['&', 'g', 't', ';']
  else [c]

/-- Character-list form of the sanitizer. -/
def sanitizeChars : List Char → List Char
  | [] => []
  | c :: t => escCharL c ++ sanitizeChars t

/-- `sanitizeText` on a string input (after the `String(text)` coercion). -/
def sanitizeText (s : String) : String :=
  ⟨sanitizeChars s.data⟩

/-- The `string | number` input type of `sanitizeText`. -/
inductive StrOrNum where
  | s (v : String)
  | n (v : JSNum)

/-- The `String(text)` coercion at the head of `sanitizeText`. -/
def jsToString : StrOrNum → String
  | .s v => v
  | .n v => v.str

/-- `sanitizeText` on its full `string | number` domain. -/
def sanitizeTextJS (t : StrOrNum) : String :=
  sanitizeText (jsToString t)

/-- What an HTML render sink (an `innerHTML` assignment) parses a
pure-text fragment back to: character references are decoded, everything
else is literal.  Only the references relevant to this program are
modelled; an `&` that does not open one of them stays literal, as in
HTML. -/
def stripEntity (t : List Char) : Option (Char × List Char) :=
  if t.take 4 = ['a', 'm', 'p', ';'] then some ('&', t.drop 4)
  else if t.take 3 = ['l', 't', ';'] then some ('<', t.drop 3)
  else if t.take 3 = ['g', 't', ';'] then some ('>', t.drop 3)
  else if t.take 5 = ['n', 'b', 's', 'p', ';'] then some (Char.ofNat 160, t.drop 5)
  else if t.take 5 = ['q', 'u', 'o', 't', ';'] then some (Char.ofNat 34, t.drop 5)
  else none

lemma stripEntity_length {t : List Char} {d : Char} {t2 : List Char}
    (h : stripEntity t = some (d, t2)) : t2.length < t.length := by
  unfold stripEntity at h
  split_ifs at h with h1 h2 h3 h4 h5 <;> cases h <;>
    [have hl := congrArg List.length h1;
     have hl := congrArg List.length h2;
     have hl := congrArg List.length h3;
     have hl := congrArg List.length h4;
     have hl := congrArg List.length h5] <;>
    simp [List.length_take] at hl ⊢ <;> omega

def renderChars : List Char → List Char
  | [] => []
  | c :: t =>
    if c = '&' then
      match h : stripEntity t with
      | some (d, t2) => d :: renderChars t2
      | none => c :: renderChars t
    else c :: renderChars t
termination_by l => l.length
decreasing_by
  · exact Nat.lt_succ_of_lt (stripEntity_length h)
  · exact Nat.lt_succ_self _
  · exact Nat.lt_succ_self _

/-- String form of the render sink. -/
def renderText (s : String) : String :=
  ⟨renderChars s.data⟩

lemma renderChars_nil : renderChars [] = [] := by
  simp [renderChars]

lemma renderChars_cons_strip (c : Char) (t : List Char) (d : Char)
    (t2 : List Char) (hc : c = '&') (h : stripEntity t = some (d, t2)) :
    renderChars (c :: t) = d :: renderChars t2 := by
  rw [renderChars, if_pos hc]
  split <;> simp_all

lemma renderChars_cons_plain (c : Char) (t : List Char) (hc : ¬c = '&') :
    renderChars (c :: t) = c :: renderChars t := by
  rw [renderChars, if_neg hc]

lemma renderChars_amp_none (t : List Char) (h : stripEntity t = none) :
    renderChars ('&' :: t) = '&' :: renderChars t := by
  rw [renderChars, if_pos rfl]
  split <;> simp_all

lemma render_escCharL (c : Char) (m : List Char) :
    renderChars (escCharL c ++ m) = c :: renderChars m := by
  by_cases h1 : c = '&'
  · subst h1
    show renderChars ('&' :: 'a' :: 'm' :: 'p' :: ';' :: m) = '&' :: renderChars m
    exact renderChars_cons_strip _ _ _ _ rfl rfl
  · by_cases h2 : c = Char.ofNat 160
    · subst h2
      show renderChars ('&' :: 'n' :: 'b' :: 's' :: 'p' :: ';' :: m) = _
      exact renderChars_cons_strip _ _ _ _ rfl rfl
    · by_cases h3 : c = '<'
      · subst h3
        show renderChars ('&' :: 'l' :: 't' :: ';' :: m) = _
        exact renderChars_cons_strip _ _ _ _ rfl rfl
      · by_cases h4 : c = '>'
        · subst h4
          show renderChars ('&' :: 'g' :: 't' :: ';' :: m) = _
          exact renderChars_cons_strip _ _ _ _ rfl rfl
        · have he : escCharL c = [c] := by
            simp [escCharL, h1, h2, h3, h4]
          rw [he]
          exact renderChars_cons_plain c m h1

lemma render_sanitizeChars (l : List Char) :
    renderChars (sanitizeChars l) = l := by
  induction l with
  | nil => exact renderChars_nil
  | cons c t ih =>
    show renderChars (escCharL c ++ sanitizeChars t) = c :: t
    rw [render_escCharL, ih]

lemma render_sanitizeText (s : String) :
    renderText (sanitizeText s) = s := by
  show String.mk (renderChars (sanitizeChars s.data)) = s
  rw [render_sanitizeChars]

lemma lt_not_mem_escCharL (c : Char) : '<' ∉ escCharL c := by
  by_cases h1 : c = '&'
  · subst h1; decide
  · by_cases h2 : c = Char.ofNat 160
    · subst h2; decide
    · by_cases h3 : c = '<'
      · subst h3; decide
      · by_cases h4 : c = '>'
        · subst h4; decide
        · have he : escCharL c = [c] := by
            simp [escCharL, h1, h2, h3, h4]
          rw [he]
          intro hmem
          exact h3 ((List.mem_singleton.mp hmem).symm)

lemma gt_not_mem_escCharL (c : Char) : '>' ∉ escCharL c := by
  by_cases h1 : c = '&'
  · subst h1; decide
  · by_cases h2 : c = Char.ofNat 160
    · subst h2; decide
    · by_cases h3 : c = '<'
      · subst h3; decide
      · by_cases h4 : c = '>'
        · subst h4; decide
        · have he : escCharL c = [c] := by
            simp [escCharL, h1, h2, h3, h4]
          rw [he]
          intro hmem
          exact h4 ((List.mem_singleton.mp hmem).symm)

lemma lt_not_mem_sanitizeChars (l : List Char) :
    '<' ∉ sanitizeChars l := by
  induction l with
  | nil => simp [sanitizeChars]
  | cons c t ih =>
    show '<' ∉ escCharL c ++ sanitizeChars t
    rw [List.mem_append]
    exact fun h => h.elim (lt_not_mem_escCharL c) ih

lemma gt_not_mem_sanitizeChars (l : List Char) :
    '>' ∉ sanitizeChars l := by
  induction l with
  | nil => simp [sanitizeChars]
  | cons c t ih =>
    show '>' ∉ escCharL c ++ sanitizeChars t
    rw [List.mem_append]
    exact fun h => h.elim (gt_not_mem_escCharL c) ih

/-! ## `encodeURIComponent` / `decodeURIComponent`

`encodeURIComponent` leaves the unreserved characters
`A-Z a-z 0-9 - _ . ! ~ * ' ( )` unchanged and replaces every other
character by the `%HH` encoding of its UTF-8 bytes.  `decodeURIComponent`
is modelled on the ASCII plane (every `%HH` escape with two hex digits is
decoded to the character with that code; a `%` not followed by two hex
digits stays literal); JavaScript number strings are pure ASCII, so this
covers every string the directions builder passes through it. -/

/-- The unreserved characters of `encodeURIComponent`. -/
def isUnreservedURI (c : Char) : Bool :=
  ('A' ≤ c && c ≤ 'Z') || ('a' ≤ c && c ≤ 'z') || ('0' ≤ c && c ≤ '9') ||
  c = '-' || c = '_' || c = '.' || c = '!' || c = '~' || c = '*' ||
  c = Char.ofNat 39 || c = '(' || c = ')'

/-- Upper-case hexadecimal digit for a value below 16. -/
def hexDigitChar (n : Nat) : Char :=
  if n < 10 then Char.ofNat (48 + n) else Char.ofNat (55 + n)

/-- UTF-8 bytes of a character. -/
def utf8Bytes (c : Char) : List Nat :=
  let n := c.toNat
  if n < 128 then [n]
  else if n < 2048 then [192 + n / 64, 128 + n % 64]
  else if n < 65536 then [224 + n / 4096, 128 + (n / 64) % 64, 128 + n % 64]
  else [240 + n / 262144, 128 + (n / 4096) % 64, 128 + (n / 64) % 64, 128 + n % 64]

/-- `%HH` form of one byte. -/
def percentByte (b : Nat) : List Char :=
  ['%', hexDigitChar (b / 16), hexDigitChar (b % 16)]

/-- `encodeURIComponent` on one character. -/
def encChar (c : Char) : List Char :=
  if isUnreservedURI c then [c] else ((utf8Bytes c).map percentByte).flatten

/-- Character-list form of `encodeURIComponent`. -/
def encodeChars : List Char → List Char
  | [] => []
  | c :: t => encChar c ++ encodeChars t

/-- `encodeURIComponent`. -/
def encodeURIComponent (s : String) : String :=
  ⟨encodeChars s.data⟩

/-- Value of a hexadecimal digit character, if it is one. -/
def hexVal (c : Char) : Option Nat :=
  if '0' ≤ c && c ≤ '9' then some (c.toNat - 48)
  else if 'A' ≤ c && c ≤ 'F' then some (c.toNat - 55)
  else if 'a' ≤ c && c ≤ 'f' then some (c.toNat - 87)
  else none

/-- One `%HH` escape at the head of the rest of the input, if present. -/
def hexPair : List Char → Option (Char × List Char)
  | h1 :: h2 :: t2 =>
    match hexVal h1 with
    | none => none
    | some a =>
      match hexVal h2 with
      | none => none
      | some b => some (Char.ofNat (16 * a + b), t2)
  | _ => none

lemma hexPair_length {t : List Char} {d : Char} {t2 : List Char}
    (h : hexPair t = some (d, t2)) : t2.length < t.length := by
  rcases t with _ | ⟨h1, _ | ⟨h2, r⟩⟩
  · exact Option.noConfusion h
  · exact Option.noConfusion h
  · have h' : (match hexVal h1 with
        | none => (none : Option (Char × List Char))
        | some a =>
          match hexVal h2 with
          | none => none
          | some b => some (Char.ofNat (16 * a + b), r)) = some (d, t2) := h
    rcases e1 : hexVal h1 with _ | a <;> rw [e1] at h'
    · exact Option.noConfusion h'
    · rcases e2 : hexVal h2 with _ | b <;> rw [e2] at h'
      · exact Option.noConfusion h'
      · have h'' : (some (Char.ofNat (16 * a + b), r) : Option (Char × List Char))
            = some (d, t2) := h'
        cases h''
        simp only [List.length_cons]
        omega

/-- Character-list form of `decodeURIComponent` (ASCII model). -/
def decodeChars : List Char → List Char
  | [] => []
  | c :: t =>
    if c = '%' then
      match h : hexPair t with
      | some (d, t2) => d :: decodeChars t2
      | none => c :: decodeChars t
    else c :: decodeChars t
termination_by l => l.length
decreasing_by
  · exact Nat.lt_succ_of_lt (hexPair_length h)
  · exact Nat.lt_succ_self _
  · exact Nat.lt_succ_self _

/-- `decodeURIComponent` (ASCII model). -/
def decodeURIComponent (s : String) : String :=
  ⟨decodeChars s.data⟩

lemma decodeChars_cons_plain (c : Char) (t : List Char) (hc : ¬c = '%') :
    decodeChars (c :: t) = c :: decodeChars t := by
  rw [decodeChars, if_neg hc]

lemma decodeChars_cons_hex (c : Char) (t : List Char) (d : Char)
    (t2 : List Char) (hc : c = '%') (h : hexPair t = some (d, t2)) :
    decodeChars (c :: t) = d :: decodeChars t2 := by
  rw [decodeChars, if_pos hc]
  split <;> simp_all

lemma hexVal_hexDigitChar : ∀ n : Nat, n < 16 → hexVal (hexDigitChar n) = some n := by
  decide

lemma percent_not_unreserved : isUnreservedURI '%' = false := by decide

lemma hexPair_percentTail (b : Nat) (m : List Char) (hb : b < 256) :
    hexPair (hexDigitChar (b / 16) :: hexDigitChar (b % 16) :: m)
      = some (Char.ofNat b, m) := by
  have hdiv : b / 16 < 16 := by omega
  have hmod : b % 16 < 16 := by omega
  have key : 16 * (b / 16) + b % 16 = b := by omega
  show (match hexVal (hexDigitChar (b / 16)) with
      | none => (none : Option (Char × List Char))
      | some a =>
        match hexVal (hexDigitChar (b % 16)) with
        | none => none
        | some bb => some (Char.ofNat (16 * a + bb), m)) = some (Char.ofNat b, m)
  rw [hexVal_hexDigitChar _ hdiv, hexVal_hexDigitChar _ hmod]
  show some (Char.ofNat (16 * (b / 16) + b % 16), m) = some (Char.ofNat b, m)
  rw [key]

lemma decodeChars_percentByte (b : Nat) (hb : b < 128) (m : List Char) :
    decodeChars (percentByte b ++ m) = Char.ofNat b :: decodeChars m := by
  show decodeChars ('%' :: hexDigitChar (b / 16) :: hexDigitChar (b % 16) :: m) = _
  exact decodeChars_cons_hex _ _ _ _ rfl (hexPair_percentTail b m (by omega))

lemma decodeChars_encChar (c : Char) (hc : c.toNat < 128) (m : List Char) :
    decodeChars (encChar c ++ m) = c :: decodeChars m := by
  by_cases hu : isUnreservedURI c = true
  · rw [encChar, if_pos hu]
    have hne : ¬c = '%' := by
      intro h; subst h
      rw [percent_not_unreserved] at hu
      exact Bool.false_ne_true hu
    exact decodeChars_cons_plain c m hne
  · rw [encChar, if_neg hu]
    have hb : utf8Bytes c = [c.toNat] := by
      rw [utf8Bytes]
      simp [hc]
    rw [hb]
    show decodeChars (percentByte c.toNat ++ m) = c :: decodeChars m
    rw [decodeChars_percentByte c.toNat hc m, Char.ofNat_toNat]

lemma decodeChars_encodeChars_append (l : List Char) (hl : ∀ c ∈ l, c.toNat < 128)
    (m : List Char) : decodeChars (encodeChars l ++ m) = l ++ decodeChars m := by
  induction l with
  | nil => rfl
  | cons c t ih =>
    show decodeChars (encChar c ++ encodeChars t ++ m) = (c :: t) ++ decodeChars m
    rw [List.append_assoc, decodeChars_encChar c (hl c (List.mem_cons_self c t))]
    rw [ih (fun d hd => hl d (List.mem_cons_of_mem c hd))]
    rfl

/-! ## Untyped JavaScript values and the station record validator

Station records arrive from an untrusted feed, so at the validator they
are records of arbitrary JavaScript values.  `validateStation`
(MapView, hardened variant):
```js
const validateStation = (station: ChargingStation): boolean => {
  return (
    typeof station.id === 'string' &&
    typeof station.name === 'string' &&
    typeof station.address === 'string' &&
    typeof station.lat === 'number' &&
    typeof station.lng === 'number' &&
    typeof station.available === 'number' &&
    typeof station.total === 'number' &&
    typeof station.cost === 'number' &&
    Array.isArray(station.amenities) &&
    ['available', 'busy', 'offline'].includes(station.status)
  )
}
``` -/

inductive JSValue where
  | vstr (s : String)
  | vnum (n : JNumVal)
  | varr (l : List JSValue)
  | vbool (b : Bool)
  | vnull
  | vundef

/-- A station record as received (every field of unknown provenance). -/
structure RawStation where
  id : JSValue
  name : JSValue
  address : JSValue
  lat : JSValue
  lng : JSValue
  available : JSValue
  total : JSValue
  cost : JSValue
  amenities : JSValue
  status : JSValue

/-- `typeof v === 'string'`. -/
def typeofString : JSValue → Bool
  | .vstr _ => true
  | _ => false

/-- `typeof v === 'number'`. -/
def typeofNumber : JSValue → Bool
  | .vnum _ => true
  | _ => false

/-- `Array.isArray(v)`. -/
def isArrayJS : JSValue → Bool
  | .varr _ => true
  | _ => false

/-- `['available', 'busy', 'offline'].includes(v)` (strict equality, so
only a string can be a member). -/
def statusInEnum : JSValue → Bool
  | .vstr s => s == "available" || s == "busy" || s == "offline"
  | _ => false

/-- The station record validator. -/
def validateStation (st : RawStation) : Bool :=
  typeofString st.id && typeofString st.name && typeofString st.address &&
  typeofNumber st.lat && typeofNumber st.lng && typeofNumber st.available &&
  typeofNumber st.total && typeofNumber st.cost && isArrayJS st.amenities &&
  statusInEnum st.status

/-! ## The two MapView variants: station list and map markers

Hardened variant (the one with `validateStation`):
```js
const sanitizedSearchQuery = sanitizeText(searchQuery).toLowerCase()
const filteredStations = stations
  .filter(validateStation)
  .filter(station =>
    station.name.toLowerCase().includes(sanitizedSearchQuery) ||
    station.address.toLowerCase().includes(sanitizedSearchQuery))
...
{stations.filter(validateStation).map((station) => <Marker .../>)}
```
Other variant (`src/src/components/MapView.tsx`):
```js
const filteredStations = stations.filter(station =>
  station.name.toLowerCase().includes(searchQuery.toLowerCase()) ||
  station.address.toLowerCase().includes(searchQuery.toLowerCase()))
...
{stations.map((station) => <Marker .../>)}
``` -/

/-- `String(v)`-free read of a string field; only reached on records whose
field passed the `typeof ... === 'string'` check, where it is exact. -/
def asStringD : JSValue → String
  | .vstr s => s
  | _ => ""

/-- `toLowerCase()` (ASCII model, adequate for the claims proved here). -/
def jsToLower (s : String) : String :=
  ⟨s.data.map Char.toLower⟩

/-- `a.startsWith`-style prefix test on character lists. -/
def startsWithChars : List Char → List Char → Bool
  | _, [] => true
  | [], _ :: _ => false
  | c :: cs, d :: ds => c == d && startsWithChars cs ds

/-- `String.prototype.includes` on character lists. -/
def includesChars (s sub : List Char) : Bool :=
  match s with
  | [] => startsWithChars [] sub
  | _ :: rest => startsWithChars s sub || includesChars rest sub

/-- `a.includes(b)`. -/
def jsIncludes (s sub : String) : Bool :=
  includesChars s.data sub.data

/-- The search predicate of the hardened MapView, applied after
`validateStation` (its argument is the already sanitized and lowercased
query). -/
def matchesQuery (q : String) (st : RawStation) : Bool :=
  jsIncludes (jsToLower (asStringD st.name)) q ||
  jsIncludes (jsToLower (asStringD st.address)) q

/-- `filteredStations` of the hardened MapView. -/
def filteredStations (stations : List RawStation) (searchQuery : String) :
    List RawStation :=
  let sanitizedSearchQuery := jsToLower (sanitizeText searchQuery)
  (stations.filter validateStation).filter (matchesQuery sanitizedSearchQuery)

/-- The stations for which the hardened MapView emits a map marker. -/
def stationMarkers (stations : List RawStation) : List RawStation :=
  stations.filter validateStation

/-- `filteredStations` of the other MapView variant (no validation). -/
def filteredStationsV2 (stations : List RawStation) (searchQuery : String) :
    List RawStation :=
  stations.filter (matchesQuery (jsToLower searchQuery))

/-- The stations for which the other MapView variant emits a map marker:
all of them, unvalidated. -/
def stationMarkersV2 (stations : List RawStation) : List RawStation :=
  stations

/-! ## Typed stations, the two directions builders, and the app state machine

The TypeScript-level `ChargingStation` interface (App.tsx etc.).  `lat`
and `lng` are JavaScript numbers carried with their textual forms. -/

inductive Status where
  | available
  | busy
  | offline
deriving DecidableEq

structure ChargingStation where
  id : String
  name : String
  address : String
  lat : JSNum
  lng : JSNum
  available : Int
  total : Int
  cost : ℚ
  amenities : List String
  status : Status
deriving DecidableEq

/-- Guarded `handleGetDirections` (StationDetails, hardened variant):
```js
const lat = parseFloat(String(station.lat))
const lng = parseFloat(String(station.lng))
if (isNaN(lat) || isNaN(lng) || lat < -90 || lat > 90 || lng < -180 || lng > 180) {
  console.error('Invalid coordinates'); return
}
const url = `https://maps.google.com/?q=${encodeURIComponent(lat)},${encodeURIComponent(lng)}`
window.open(url, '_blank')
```
`parseFloat(String(x))` is the identity on JavaScript numbers, and
`encodeURIComponent(x)` for a number `x` encodes `String(x)`.  `none`
means no URL is constructed and `window.open` is not invoked. -/
def handleGetDirections (st : ChargingStation) : Option String :=
  if st.lat.val.isNaN || st.lng.val.isNaN ||
      JNumVal.jlt st.lat.val (.fin (-90)) || JNumVal.jlt (.fin 90) st.lat.val ||
      JNumVal.jlt st.lng.val (.fin (-180)) || JNumVal.jlt (.fin 180) st.lng.val then
    none
  else
    some ("https://maps.google.com/?q=" ++ encodeURIComponent st.lat.str ++ ","
      ++ encodeURIComponent st.lng.str)

/-- Raw `handleGetDirections` (second StationDetails variant):
```js
const url = `https://maps.google.com/?q=${station.lat},${station.lng}`
window.open(url, '_blank')
```
Template-literal interpolation coerces each number with `String(x)`; the
URL is always constructed and opened. -/
def handleGetDirectionsRaw (st : ChargingStation) : Option String :=
  some ("https://maps.google.com/?q=" ++ st.lat.str ++ "," ++ st.lng.str)

/-! ### App-level navigation state machine (App.tsx)

State: `currentView`, `selectedStation`, `isCharging`; handlers:
`handleStationSelect` (from MapView, mounted only on the map view),
`handleStartCharging` (from StationDetails, mounted only on the details
view with a selected station), `handleQRScan` (from QRScanner, mounted
only on the scanner view), the three bottom-navigation buttons (always
mounted), and the per-view back buttons. -/

inductive View where
  | map
  | details
  | scanner
  | profile
deriving DecidableEq

structure AppState where
  currentView : View
  selectedStation : Option ChargingStation
  isCharging : Bool
deriving DecidableEq

/-- `useState` initial values of App. -/
def initialState : AppState :=
  { currentView := .map, selectedStation := none, isCharging := false }

inductive Event where
  | navMap
  | navScanner
  | navProfile
  | selectStation (st : ChargingStation)
  | startCharging
  | scanResult (payload : String)
  | backFromDetails
  | backFromScanner
  | backFromProfile

/-- One event-handler invocation.  Handlers attached to a component of a
specific view can only fire while that view is current; the bottom
navigation fires from anywhere.  `handleStartCharging` is
`() => setCurrentView('scanner')` with no status guard; `handleQRScan`
is `(result) => { setIsCharging(true); setCurrentView('map') }` with no
payload validation. -/
def step (s : AppState) (e : Event) : AppState :=
  match e with
  | .navMap => { s with currentView := .map }
  | .navScanner => { s with currentView := .scanner }
  | .navProfile => { s with currentView := .profile }
  | .selectStation st =>
      if s.currentView = .map then
        { s with selectedStation := some st, currentView := .details }
      else s
  | .startCharging =>
      if s.currentView = .details ∧ s.selectedStation.isSome = true then
        { s with currentView := .scanner }
      else s
  | .scanResult _ =>
      if s.currentView = .scanner then
        { s with isCharging := true, currentView := .map }
      else s
  | .backFromDetails =>
      if s.currentView = .details then { s with currentView := .map } else s
  | .backFromScanner =>
      if s.currentView = .scanner then { s with currentView := .details } else s
  | .backFromProfile =>
      if s.currentView = .profile then { s with currentView := .map } else s

/-- Whether the selected station renders the Start Charging button
enabled: `disabled={station.status !== 'available'}`. -/
def selectedAvailable : Option ChargingStation → Bool
  | some st => st.status = .available
  | none => false

/-- A user click on the Start Charging control surface: the button exists
only on the details view and is disabled unless the selected station's
status is `available`, so `onStartCharging` fires only in that case;
otherwise the click does nothing. -/
def clickStartCharging (s : AppState) : AppState :=
  if s.currentView = View.details ∧ selectedAvailable s.selectedStation = true then
    step s .startCharging
  else s

/-- Folding a sequence of events through the state machine. -/
def run (s : AppState) (es : List Event) : AppState :=
  es.foldl step s

/-! ## Concrete records (the App.tsx mock data and adversarial variants) -/

/-- Mock station 1 of App.tsx. -/
def downtownPlaza : ChargingStation :=
  { id := "1", name := "Downtown Plaza", address := "123 Main St, Miami, FL",
    lat := ⟨.fin 25.7617, "25.7617"⟩, lng := ⟨.fin (-80.1918), "-80.1918"⟩,
    available := 3, total := 4, cost := 0.35,
    amenities := ["Restaurant", "WiFi", "Restroom"], status := .available }

/-- Mock station 2 of App.tsx (busy). -/
def airportTerminal : ChargingStation :=
  { id := "2", name := "Airport Terminal", address := "2100 NW 42nd Ave, Miami, FL",
    lat := ⟨.fin 25.7959, "25.7959"⟩, lng := ⟨.fin (-80.2870), "-80.287"⟩,
    available := 0, total := 6, cost := 0.42,
    amenities := ["Food Court", "Shopping"], status := .busy }

/-- A station whose latitude is out of range (spec scenario C). -/
def stBadCoords : ChargingStation :=
  { id := "9", name := "Nowhere", address := "nowhere",
    lat := ⟨.fin 999, "999"⟩, lng := ⟨.fin (-80.19), "-80.19"⟩,
    available := 0, total := 0, cost := 0,
    amenities := [], status := .offline }

/-- A well-formed raw record (the raw form of mock station 1). -/
def goodRaw : RawStation :=
  { id := .vstr "1", name := .vstr "Downtown Plaza",
    address := .vstr "123 Main St, Miami, FL",
    lat := .vnum (.fin 25.7617), lng := .vnum (.fin (-80.1918)),
    available := .vnum (.fin 3), total := .vnum (.fin 4),
    cost := .vnum (.fin 0.35), amenities := .varr [.vstr "WiFi"],
    status := .vstr "available" }

/-- A raw record with an out-of-enum status (fails validation). -/
def evilStatusRaw : RawStation :=
  { id := .vstr "66", name := .vstr "Evil Station",
    address := .vstr "666 Nowhere Rd",
    lat := .vnum (.fin 25.0), lng := .vnum (.fin (-80.0)),
    available := .vnum (.fin 1), total := .vnum (.fin 2),
    cost := .vnum (.fin 0.1), amenities := .varr [],
    status := .vstr "hacked" }

/-- A raw record whose `available` is a negative number: structurally it
is still a number, so the validator accepts it. -/
def negAvailRaw : RawStation :=
  { id := .vstr "7", name := .vstr "Ghost Port",
    address := .vstr "7 Phantom Way",
    lat := .vnum (.fin 25.0), lng := .vnum (.fin (-80.0)),
    available := .vnum (.fin (-1)), total := .vnum (.fin 2),
    cost := .vnum (.fin 0.1), amenities := .varr [],
    status := .vstr "available" }

/-! ## Spec-side predicates used to compare against the code -/

/-- The claim's reading of the data model: a coordinate outside the legal
latitude interval. -/
def latOutOfRange : JNumVal → Prop
  | .nan => False
  | .inf => True
  | .neginf => True
  | .fin q => q < -90 ∨ 90 < q

/-- A coordinate outside the legal longitude interval. -/
def lngOutOfRange : JNumVal → Prop
  | .nan => False
  | .inf => True
  | .neginf => True
  | .fin q => q < -180 ∨ 180 < q

/-- The rejection condition of the coordinate-guard claims: a NaN or an
out-of-range coordinate on either axis. -/
def invalidCoords (st : ChargingStation) : Prop :=
  st.lat.val = .nan ∨ st.lng.val = .nan ∨
  latOutOfRange st.lat.val ∨ lngOutOfRange st.lng.val

/-- The field is a string. -/
def IsStringV (v : JSValue) : Prop := ∃ s, v = .vstr s

/-- The field is a number (of any value). -/
def IsNumberV (v : JSValue) : Prop := ∃ n, v = .vnum n

/-- The field is an array (whose members, as JavaScript values, are all
coercible to text). -/
def IsTextSeq (v : JSValue) : Prop := ∃ l, v = .varr l

/-- The field is a non-negative integer number. -/
def NonNegIntNum (v : JSValue) : Prop := ∃ n : ℕ, v = .vnum (.fin (n : ℚ))

/-- The field is a non-negative number. -/
def NonNegNum (v : JSValue) : Prop := ∃ q : ℚ, v = .vnum (.fin q) ∧ 0 ≤ q

/-- The field is exactly one of the three enumerated status strings. -/
def statusEnumerated (v : JSValue) : Prop :=
  v = .vstr "available" ∨ v = .vstr "busy" ∨ v = .vstr "offline"

/-- Spec-modelled predicate following the words of the validator claim:
every field matches its declared type per the data model (strings;
numeric coordinates; non-negative integer `available`/`total`;
non-negative `cost`; a sequence `amenities`; enumerated `status`). -/
def specDeclaredValid (st : RawStation) : Prop :=
  IsStringV st.id ∧ IsStringV st.name ∧ IsStringV st.address ∧
  IsNumberV st.lat ∧ IsNumberV st.lng ∧
  NonNegIntNum st.available ∧ NonNegIntNum st.total ∧ NonNegNum st.cost ∧
  IsTextSeq st.amenities ∧ statusEnumerated st.status

/-! ## Claim theorems -/

/-- C1, counterexample.  The claim quantifies over both MapView variants,
including the one at src/src/components/MapView.tsx whose marker loop is
`stations.map(...)` and whose `filteredStations` never consults
`validateStation`: a record with an out-of-enum status fails validation
yet is handed to the map as a marker and shown in the station list of
that variant. -/
theorem unvalidated_station_rendered_in_second_variant :
    validateStation evilStatusRaw = false ∧
    evilStatusRaw ∈ stationMarkersV2 [evilStatusRaw] ∧
    evilStatusRaw ∈ filteredStationsV2 [evilStatusRaw] "" := by
  refine ⟨rfl, ?_, ?_⟩
  · show evilStatusRaw ∈ [evilStatusRaw]
    exact List.mem_singleton.mpr rfl
  · show evilStatusRaw ∈ [evilStatusRaw]
    exact List.mem_singleton.mpr rfl

/-- C1, amended.  In the hardened MapView (the variant defining
`validateStation`), every station of the rendered/filtered list and every
station handed to the map as a marker passed `validateStation`, for every
input station list and every search query; the other MapView variant has
no such guarantee. -/
theorem hardened_surfaces_only_validated (stations : List RawStation)
    (q : String) (st : RawStation) :
    (st ∈ filteredStations stations q → validateStation st = true) ∧
    (st ∈ stationMarkers stations → validateStation st = true) := by
  constructor
  · intro h
    unfold filteredStations at h
    have h1 := (List.mem_filter.mp h).1
    exact (List.mem_filter.mp h1).2
  · intro h
    exact (List.mem_filter.mp h).2

/-- C1, witness for the amended theorem at a concrete validated record. -/
theorem hardened_surfaces_only_validated_witness :
    goodRaw ∈ filteredStations [goodRaw] "" ∧ validateStation goodRaw = true := by
  have hm : goodRaw ∈ filteredStations [goodRaw] "" := by
    show goodRaw ∈ [goodRaw]
    exact List.mem_singleton.mpr rfl
  exact ⟨hm, (hardened_surfaces_only_validated [goodRaw] "" goodRaw).1 hm⟩

/-- C3, counterexample.  The claim says `sanitizeText` is equivalent to
HTML-entity-escaping `<`, `>`, `&` and quotes, and that its output
contains no unescaped quote.  On the one-character string consisting of a
double quote (U+0022), the output is that same bare double quote —
`textContent`/`innerHTML` serialization does not touch quotes — so the
output does contain an unescaped quote character. -/
theorem sanitize_passes_quote_through :
    sanitizeText (String.singleton (Char.ofNat 34)) = String.singleton (Char.ofNat 34) ∧
    Char.ofNat 34 ∈ (sanitizeText (String.singleton (Char.ofNat 34))).data := by
  constructor
  · rfl
  · show Char.ofNat 34 ∈ [Char.ofNat 34]
    exact List.mem_singleton.mpr rfl

/-- C3, amended.  `sanitizeText` neutralizes exactly the characters that
can open a markup or script context in a text-node render sink: its
output contains no `<` and no `>` at all, and every `&` is escaped, in
the sense that the render sink parses the output back to exactly the
input text (so no character of the input can act as markup).  Double and
single quotes pass through unescaped, which is safe for text-node sinks
but would not be for attribute-value sinks. -/
theorem sanitize_neutralizes_angle_and_amp (s : String) :
    '<' ∉ (sanitizeText s).data ∧ '>' ∉ (sanitizeText s).data ∧
    renderText (sanitizeText s) = s :=
  ⟨lt_not_mem_sanitizeChars s.data, gt_not_mem_sanitizeChars s.data,
    render_sanitizeText s⟩

/-- C6, confirmed.  Re-escaping already-escaped output never re-introduces
an active markup context: the doubly sanitized string still contains no
`<` or `>` (so nothing in it can open a tag), and the render sink
displays it exactly as the singly sanitized text `sanitizeText s`.
Moreover `sanitizeText s` itself contains no unescaped `<` or `>`, and a
numeric input is coerced to its textual form first (`String(text)`), so
the function is total on its `string | number` domain and never raises. -/
theorem sanitize_reescape_stays_inert (s : String) (n : JSNum) :
    renderText (sanitizeText (sanitizeText s)) = sanitizeText s ∧
    '<' ∉ (sanitizeText (sanitizeText s)).data ∧
    '>' ∉ (sanitizeText (sanitizeText s)).data ∧
    '<' ∉ (sanitizeText s).data ∧
    '>' ∉ (sanitizeText s).data ∧
    sanitizeTextJS (.n n) = sanitizeText n.str :=
  ⟨render_sanitizeText (sanitizeText s),
    lt_not_mem_sanitizeChars (sanitizeText s).data,
    gt_not_mem_sanitizeChars (sanitizeText s).data,
    lt_not_mem_sanitizeChars s.data,
    gt_not_mem_sanitizeChars s.data, rfl⟩

lemma typeofString_iff (v : JSValue) : typeofString v = true ↔ IsStringV v := by
  cases v <;> simp [typeofString, IsStringV]

lemma typeofNumber_iff (v : JSValue) : typeofNumber v = true ↔ IsNumberV v := by
  cases v <;> simp [typeofNumber, IsNumberV]

lemma isArrayJS_iff (v : JSValue) : isArrayJS v = true ↔ IsTextSeq v := by
  cases v <;> simp [isArrayJS, IsTextSeq]

lemma statusInEnum_iff (v : JSValue) : statusInEnum v = true ↔ statusEnumerated v := by
  cases v <;> simp [statusInEnum, statusEnumerated] <;> tauto

/-- C7, counterexample.  The claim is an iff against the declared data
model, which makes `available`/`total` non-negative integers and `cost`
non-negative.  `validateStation` only checks `typeof ... === 'number'`,
so a record with `available: -1` passes validation while the declared
data model rejects it: the iff fails. -/
theorem validate_accepts_negative_available :
    validateStation negAvailRaw = true ∧ ¬specDeclaredValid negAvailRaw := by
  refine ⟨rfl, ?_⟩
  rintro ⟨-, -, -, -, -, ⟨n, hn⟩, -⟩
  have hq : (-1 : ℚ) = (n : ℚ) := by
    have h1 : JSValue.vnum (.fin (-1)) = .vnum (.fin (n : ℚ)) := hn
    simpa using h1
  have h0 : (0 : ℚ) ≤ (n : ℚ) := by positivity
  rw [← hq] at h0
  linarith

/-- C7, amended.  `validateStation record` returns true iff the record is
structurally well typed: `id`, `name`, `address` are strings; `lat`,
`lng`, `available`, `total`, `cost` have number type (any numeric value —
negativity, non-integrality and NaN are not rejected); `amenities` is an
array; and `status` is exactly one of the three enumerated strings.  It
is a pure predicate. -/
theorem validate_iff_structural_types (st : RawStation) :
    validateStation st = true ↔
      (IsStringV st.id ∧ IsStringV st.name ∧ IsStringV st.address ∧
       IsNumberV st.lat ∧ IsNumberV st.lng ∧ IsNumberV st.available ∧
       IsNumberV st.total ∧ IsNumberV st.cost ∧ IsTextSeq st.amenities ∧
       statusEnumerated st.status) := by
  unfold validateStation
  simp only [Bool.and_eq_true, typeofString_iff, typeofNumber_iff,
    isArrayJS_iff, statusInEnum_iff]
  tauto

lemma jlt_true_of_latOut {v : JNumVal} (h : latOutOfRange v) :
    (JNumVal.jlt v (.fin (-90)) || JNumVal.jlt (.fin 90) v) = true := by
  cases v with
  | nan => exact absurd h id
  | inf => rfl
  | neginf => rfl
  | fin q =>
    rcases h with h | h
    · have : JNumVal.jlt (.fin q) (.fin (-90)) = true := by
        simp [JNumVal.jlt]; linarith
      simp [this]
    · have : JNumVal.jlt (.fin 90) (.fin q) = true := by
        simp [JNumVal.jlt]; linarith
      simp [this]

lemma jlt_true_of_lngOut {v : JNumVal} (h : lngOutOfRange v) :
    (JNumVal.jlt v (.fin (-180)) || JNumVal.jlt (.fin 180) v) = true := by
  cases v with
  | nan => exact absurd h id
  | inf => rfl
  | neginf => rfl
  | fin q =>
    rcases h with h | h
    · have : JNumVal.jlt (.fin q) (.fin (-180)) = true := by
        simp [JNumVal.jlt]; linarith
      simp [this]
    · have : JNumVal.jlt (.fin 180) (.fin q) = true := by
        simp [JNumVal.jlt]; linarith
      simp [this]

lemma directions_guard_fires {st : ChargingStation} (h : invalidCoords st) :
    (st.lat.val.isNaN || st.lng.val.isNaN ||
      JNumVal.jlt st.lat.val (.fin (-90)) || JNumVal.jlt (.fin 90) st.lat.val ||
      JNumVal.jlt st.lng.val (.fin (-180)) || JNumVal.jlt (.fin 180) st.lng.val)
      = true := by
  simp only [Bool.or_eq_true]
  rcases h with h | h | h | h
  · exact Or.inl (Or.inl (Or.inl (Or.inl (Or.inl (by rw [h]; rfl)))))
  · exact Or.inl (Or.inl (Or.inl (Or.inl (Or.inr (by rw [h]; rfl)))))
  · have hc := jlt_true_of_latOut h
    simp only [Bool.or_eq_true] at hc
    rcases hc with hc | hc
    · exact Or.inl (Or.inl (Or.inl (Or.inr hc)))
    · exact Or.inl (Or.inl (Or.inr hc))
  · have hc := jlt_true_of_lngOut h
    simp only [Bool.or_eq_true] at hc
    rcases hc with hc | hc
    · exact Or.inl (Or.inr hc)
    · exact Or.inr hc

/-- C5, confirmed.  When either coordinate of the selected station is NaN
or outside its legal interval, the guarded `handleGetDirections`
constructs no URL and opens no external navigation (the handler logs and
returns): the result is `none` and no other state is touched (the
handler mutates nothing). -/
theorem invalid_coordinates_rejected (st : ChargingStation)
    (h : invalidCoords st) : handleGetDirections st = none := by
  unfold handleGetDirections
  exact if_pos (directions_guard_fires h)

/-- C5, witness: spec scenario C (`lat: 999, lng: -80.19`) is rejected. -/
theorem invalid_coordinates_rejected_witness :
    invalidCoords stBadCoords ∧ handleGetDirections stBadCoords = none := by
  have h : invalidCoords stBadCoords := by
    refine Or.inr (Or.inr (Or.inl ?_))
    show (999 : ℚ) < -90 ∨ (90 : ℚ) < 999
    right; norm_num
  exact ⟨h, invalid_coordinates_rejected stBadCoords h⟩

/-- C2, counterexample.  The claim says the coordinate guard is the only
path to an externally opened directions URL and that every function
constructing one parses, range-checks and percent-encodes first.  The
second `handleGetDirections` variant in StationDetails.tsx interpolates
the raw `station.lat`/`station.lng` fields into the URL template and
opens it unconditionally: on a station with latitude 999 it still opens
a URL, which the guarded variant refuses. -/
theorem raw_variant_builds_url_from_raw_fields :
    latOutOfRange stBadCoords.lat.val ∧
    handleGetDirectionsRaw stBadCoords = some "https://maps.google.com/?q=999,-80.19" ∧
    handleGetDirections stBadCoords = none := by
  refine ⟨?_, rfl, ?_⟩
  · show (999 : ℚ) < -90 ∨ (90 : ℚ) < 999
    right; norm_num
  · rfl

/-- C2, amended.  The guard holds inside the guarded `handleGetDirections`
variant — it parses, range-checks, and percent-encodes before opening —
but it is not the only path: the second variant constructs the directions
URL directly from the raw `station.lat`/`station.lng` fields with no
parsing, no range check and no percent-encoding, for every station. -/
theorem guard_rejects_but_raw_variant_navigates (st : ChargingStation)
    (h : invalidCoords st) :
    handleGetDirections st = none ∧
    handleGetDirectionsRaw st =
      some ("https://maps.google.com/?q=" ++ st.lat.str ++ "," ++ st.lng.str) := by
  constructor
  · unfold handleGetDirections
    exact if_pos (directions_guard_fires h)
  · rfl

/-- C2, witness for the amended theorem. -/
theorem guard_rejects_but_raw_variant_navigates_witness :
    invalidCoords stBadCoords ∧
    handleGetDirections stBadCoords = none ∧
    handleGetDirectionsRaw stBadCoords =
      some ("https://maps.google.com/?q=" ++ stBadCoords.lat.str ++ ","
        ++ stBadCoords.lng.str) := by
  have h : invalidCoords stBadCoords := by
    refine Or.inr (Or.inr (Or.inl ?_))
    show (999 : ℚ) < -90 ∨ (90 : ℚ) < 999
    right; norm_num
  have hc := guard_rejects_but_raw_variant_navigates stBadCoords h
  exact ⟨h, hc.1, hc.2⟩

/-- The Details view showing the busy mock station. -/
def detailsBusyState : AppState :=
  { currentView := .details, selectedStation := some airportTerminal,
    isCharging := false }

/-- The Scanner view reached from the available mock station's details. -/
def scannerState : AppState :=
  { currentView := .scanner, selectedStation := some downtownPlaza,
    isCharging := false }

/-- A Map-view state with a charging session already active. -/
def chargingMapState : AppState :=
  { currentView := .map, selectedStation := none, isCharging := true }

/-- A Scanner-view state with no selection and no active session. -/
def scannerNoneState : AppState :=
  { currentView := .scanner, selectedStation := none, isCharging := false }

/-- C4, counterexample.  The claim says the state machine enforces the
status guard independently of the disabled control surface.  It does
not: `handleStartCharging` is `() => setCurrentView('scanner')`, so
invoking the `startCharging` action in Details with the busy mock
station transitions to Scanner instead of being a no-op. -/
theorem start_charging_has_no_machine_guard :
    airportTerminal.status ≠ Status.available ∧
    (step detailsBusyState .startCharging).currentView = View.scanner := by
  constructor
  · intro h
    exact Status.noConfusion h
  · rfl

/-- C4, amended.  The no-op guarantee for a non-available station comes
from the control surface alone: the Start Charging button is rendered
with `disabled={station.status !== 'available'}`, so a click on it while
Details shows a non-available station does nothing and the state stays
`Details`; the underlying `handleStartCharging` has no guard of its own.
From Map, selecting a station with status `available` and clicking Start
Charging reaches Scanner. -/
theorem charge_guard_enforced_by_control_surface (s : AppState)
    (st : ChargingStation) :
    (s.currentView = View.details → s.selectedStation = some st →
      st.status ≠ Status.available → clickStartCharging s = s) ∧
    (s.currentView = View.map → st.status = Status.available →
      (clickStartCharging (step s (.selectStation st))).currentView
        = View.scanner) := by
  constructor
  · intro _ hsel hst
    have hdis : selectedAvailable s.selectedStation = false := by
      rw [hsel]
      simpa [selectedAvailable] using hst
    unfold clickStartCharging
    refine if_neg (fun hand => ?_)
    rw [hdis] at hand
    exact Bool.false_ne_true hand.2
  · intro hv hst
    have hsel : step s (.selectStation st)
        = { s with selectedStation := some st, currentView := .details } := by
      simp only [step]
      rw [if_pos hv]
    rw [hsel]
    have hen : selectedAvailable (some st) = true := by
      simpa [selectedAvailable] using hst
    unfold clickStartCharging
    rw [if_pos ⟨rfl, hen⟩]
    simp [step]

/-- C4, witness: a click in Details with the busy mock station is inert,
and the Map → select available → start charging path reaches Scanner. -/
theorem charge_guard_enforced_by_control_surface_witness :
    clickStartCharging detailsBusyState = detailsBusyState ∧
    (clickStartCharging (step initialState (.selectStation downtownPlaza))).currentView
      = View.scanner := by
  constructor
  · exact (charge_guard_enforced_by_control_surface detailsBusyState airportTerminal).1
      rfl rfl (fun h => Status.noConfusion h)
  · exact (charge_guard_enforced_by_control_surface initialState downtownPlaza).2 rfl rfl

/-- C8, confirmed.  In the Scanner view, a decoded payload — any string,
no content validation — moves the view to Map and sets `isCharging`,
leaving the selected station untouched. -/
theorem scan_sets_charging_and_returns_to_map (s : AppState) (payload : String)
    (h : s.currentView = View.scanner) :
    (step s (.scanResult payload)).currentView = View.map ∧
    (step s (.scanResult payload)).isCharging = true ∧
    (step s (.scanResult payload)).selectedStation = s.selectedStation := by
  simp only [step]
  rw [if_pos h]
  exact ⟨rfl, rfl, rfl⟩

/-- C8, witness: spec scenario D with payload "SESSION-OK". -/
theorem scan_sets_charging_and_returns_to_map_witness :
    (step scannerState (.scanResult "SESSION-OK")).currentView = View.map ∧
    (step scannerState (.scanResult "SESSION-OK")).isCharging = true := by
  have h := scan_sets_charging_and_returns_to_map scannerState "SESSION-OK" rfl
  exact ⟨h.1, h.2.1⟩

lemma step_charging_unchanged_of_not_scan (s : AppState) (e : Event)
    (hne : ∀ p, e ≠ .scanResult p) : (step s e).isCharging = s.isCharging := by
  cases e with
  | scanResult p => exact absurd rfl (hne p)
  | navMap => rfl
  | navScanner => rfl
  | navProfile => rfl
  | selectStation st =>
    simp only [step]
    by_cases hv : s.currentView = View.map
    · rw [if_pos hv]
    · rw [if_neg hv]
  | startCharging =>
    simp only [step]
    by_cases hv : s.currentView = View.details ∧ s.selectedStation.isSome = true
    · rw [if_pos hv]
    · rw [if_neg hv]
  | backFromDetails =>
    simp only [step]
    by_cases hv : s.currentView = View.details
    · rw [if_pos hv]
    · rw [if_neg hv]
  | backFromScanner =>
    simp only [step]
    by_cases hv : s.currentView = View.scanner
    · rw [if_pos hv]
    · rw [if_neg hv]
  | backFromProfile =>
    simp only [step]
    by_cases hv : s.currentView = View.profile
    · rw [if_pos hv]
    · rw [if_neg hv]

lemma step_preserves_charging_true (s : AppState) (e : Event)
    (h : s.isCharging = true) : (step s e).isCharging = true := by
  cases e with
  | scanResult p =>
    simp only [step]
    by_cases hv : s.currentView = View.scanner
    · rw [if_pos hv]
    · rw [if_neg hv]
      exact h
  | navMap => exact h
  | navScanner => exact h
  | navProfile => exact h
  | selectStation st =>
    rw [step_charging_unchanged_of_not_scan s _ (fun p hc => Event.noConfusion hc)]
    exact h
  | startCharging =>
    rw [step_charging_unchanged_of_not_scan s _ (fun p hc => Event.noConfusion hc)]
    exact h
  | backFromDetails =>
    rw [step_charging_unchanged_of_not_scan s _ (fun p hc => Event.noConfusion hc)]
    exact h
  | backFromScanner =>
    rw [step_charging_unchanged_of_not_scan s _ (fun p hc => Event.noConfusion hc)]
    exact h
  | backFromProfile =>
    rw [step_charging_unchanged_of_not_scan s _ (fun p hc => Event.noConfusion hc)]
    exact h

/-- C10, confirmed.  `isCharging` starts false; the only handler that
changes it is `handleQRScan` (the `scanResult` event), which sets it to
true; and once true it stays true along every event sequence. -/
theorem ischarging_initial_false_and_monotone :
    initialState.isCharging = false ∧
    (∀ (s : AppState) (e : Event), (step s e).isCharging ≠ s.isCharging →
      (∃ p, e = .scanResult p) ∧ (step s e).isCharging = true) ∧
    (∀ (s : AppState) (es : List Event), s.isCharging = true →
      (run s es).isCharging = true) := by
  refine ⟨rfl, ?_, ?_⟩
  · intro s e h
    cases e with
    | scanResult p =>
      refine ⟨⟨p, rfl⟩, ?_⟩
      by_cases hv : s.currentView = View.scanner
      · simp only [step]
        rw [if_pos hv]
      · refine absurd ?_ h
        simp only [step]
        rw [if_neg hv]
    | navMap => exact absurd rfl h
    | navScanner => exact absurd rfl h
    | navProfile => exact absurd rfl h
    | selectStation st =>
      exact absurd
        (step_charging_unchanged_of_not_scan s _ (fun p hc => Event.noConfusion hc)) h
    | startCharging =>
      exact absurd
        (step_charging_unchanged_of_not_scan s _ (fun p hc => Event.noConfusion hc)) h
    | backFromDetails =>
      exact absurd
        (step_charging_unchanged_of_not_scan s _ (fun p hc => Event.noConfusion hc)) h
    | backFromScanner =>
      exact absurd
        (step_charging_unchanged_of_not_scan s _ (fun p hc => Event.noConfusion hc)) h
    | backFromProfile =>
      exact absurd
        (step_charging_unchanged_of_not_scan s _ (fun p hc => Event.noConfusion hc)) h
  · intro s es
    induction es generalizing s with
    | nil => exact fun h => h
    | cons e es ih =>
      intro h
      exact ih (step s e) (step_preserves_charging_true s e h)

/-- C10, witness: the monotone part applied to a charging state and a
nontrivial event sequence, and the only-writer part applied to the scan
event that flips the flag. -/
theorem ischarging_initial_false_and_monotone_witness :
    (run chargingMapState
      [Event.navScanner, Event.scanResult "X", Event.backFromProfile]).isCharging
      = true ∧
    (∃ p, Event.scanResult "SESSION-OK" = Event.scanResult p) := by
  constructor
  · exact ischarging_initial_false_and_monotone.2.2 chargingMapState _ rfl
  · exact (ischarging_initial_false_and_monotone.2.1 scannerNoneState
      (.scanResult "SESSION-OK") (by simp [step, scannerNoneState])).1

lemma decodeChars_nil : decodeChars [] = [] := by
  simp [decodeChars]

lemma decode_encodeChars (l : List Char) (hl : ∀ c ∈ l, c.toNat < 128) :
    decodeChars (encodeChars l) = l := by
  have h := decodeChars_encodeChars_append l hl []
  rw [List.append_nil, decodeChars_nil, List.append_nil] at h
  exact h

/-- C9, confirmed.  For a station whose coordinates are finite numbers in
range (with the ASCII textual forms JavaScript number stringification
produces), the guarded `handleGetDirections` builds exactly
`https://maps.google.com/?q=` followed by the two independently
percent-encoded coordinate strings joined by a literal comma, and
percent-decoding that query parameter reproduces exactly the two textual
coordinate values with no extraneous characters. -/
theorem directions_url_roundtrip (st : ChargingStation) (qlat qlng : ℚ)
    (hlat : st.lat.val = .fin qlat) (hlng : st.lng.val = .fin qlng)
    (h1 : -90 ≤ qlat) (h2 : qlat ≤ 90) (h3 : -180 ≤ qlng) (h4 : qlng ≤ 180)
    (hsl : ∀ c ∈ st.lat.str.data, c.toNat < 128)
    (hsn : ∀ c ∈ st.lng.str.data, c.toNat < 128) :
    handleGetDirections st
      = some ("https://maps.google.com/?q=" ++ encodeURIComponent st.lat.str
        ++ "," ++ encodeURIComponent st.lng.str) ∧
    decodeURIComponent (encodeURIComponent st.lat.str ++ ","
        ++ encodeURIComponent st.lng.str)
      = st.lat.str ++ "," ++ st.lng.str := by
  constructor
  · have g1 : st.lat.val.isNaN = false := by rw [hlat]; rfl
    have g2 : st.lng.val.isNaN = false := by rw [hlng]; rfl
    have g3 : JNumVal.jlt st.lat.val (.fin (-90)) = false := by
      rw [hlat]
      exact decide_eq_false (by linarith)
    have g4 : JNumVal.jlt (.fin 90) st.lat.val = false := by
      rw [hlat]
      exact decide_eq_false (by linarith)
    have g5 : JNumVal.jlt st.lng.val (.fin (-180)) = false := by
      rw [hlng]
      exact decide_eq_false (by linarith)
    have g6 : JNumVal.jlt (.fin 180) st.lng.val = false := by
      rw [hlng]
      exact decide_eq_false (by linarith)
    unfold handleGetDirections
    rw [g1, g2, g3, g4, g5, g6]
    rfl
  · apply String.ext
    have hd : (encodeURIComponent st.lat.str ++ ","
        ++ encodeURIComponent st.lng.str).data
        = encodeChars st.lat.str.data ++ (',' :: encodeChars st.lng.str.data) := by
      simp [String.data_append, encodeURIComponent, List.append_assoc]
    show decodeChars (encodeURIComponent st.lat.str ++ ","
        ++ encodeURIComponent st.lng.str).data
      = (st.lat.str ++ "," ++ st.lng.str).data
    rw [hd, decodeChars_encodeChars_append _ hsl,
      decodeChars_cons_plain ',' _ (by decide), decode_encodeChars _ hsn]
    simp [String.data_append]

/-- C9, witness: the Downtown Plaza mock coordinates. -/
theorem directions_url_roundtrip_witness :
    handleGetDirections downtownPlaza
      = some ("https://maps.google.com/?q=" ++ encodeURIComponent "25.7617"
        ++ "," ++ encodeURIComponent "-80.1918") ∧
    decodeURIComponent (encodeURIComponent "25.7617" ++ ","
        ++ encodeURIComponent "-80.1918")
      = "25.7617" ++ "," ++ "-80.1918" :=
  directions_url_roundtrip downtownPlaza 25.7617 (-80.1918) rfl rfl
    (by norm_num) (by norm_num) (by norm_num) (by norm_num)
    (by decide) (by decide)

end EVCharge
